import Mathlib

/-!
Verification of the task-orchestration simulator (`main.py`).

The Python source is shallowly embedded: Python `int` becomes `ℤ`,
Python `float` becomes `ℚ` (the program only adds, divides, compares and
clamps these quantities), Python lists become `List`, `None`-able results
become `Option`, and a function that can raise becomes `Except String`.
The IPC handles (`multiprocessing.Queue` fields, process objects) carry
no data relevant to the verified functions and are omitted from the
records.
-/

/-- Request record (`main.py` lines 56-68, dataclass `Request`).
`tempo_exec` is the estimated execution cost, `chegada` the arrival time,
`prioridade` the priority (lower = more urgent). The three runtime fields
are written by the orchestrator and start out empty. -/
structure Request where
  id : ℤ
  tipo : String
  prioridade : ℤ
  tempo_exec : ℚ
  chegada : ℚ
  assigned_worker : Option ℤ := none
  start_ts : Option ℚ := none
  end_ts : Option ℚ := none
deriving DecidableEq, Repr

instance : Inhabited Request :=
  ⟨{ id := 0, tipo := "", prioridade := 0, tempo_exec := 0, chegada := 0 }⟩

/-- Worker record (`main.py` lines 71-78, dataclass `WorkerInfo`).
The `task_queue : mp.Queue` field is an IPC handle with no bearing on the
selection functions and is omitted. -/
structure WorkerInfo where
  id : ℤ
  capacidade : ℤ
  active : ℤ := 0
  total_effective_work : ℚ := 0
deriving DecidableEq, Repr

instance : Inhabited WorkerInfo := ⟨{ id := 0, capacidade := 1 }⟩

/-- One step of Python `min(..., key=f)`: keep the current best unless the
new element has a strictly smaller key, so the first occurrence of the
minimum key wins. -/
def pyMinFold {A K : Type} [LinearOrder K] (f : A → K) (b : A) (l : List A) : A :=
  l.foldl (fun best y => if f y < f best then y else best) b

/-- Python `min(range(n), key=f)`: the index of the first occurrence of the
minimum key. Seeding the fold with `0` over the whole of `range n` agrees
with Python seeding with the head and folding the tail, because the step
at `y = 0`, `best = 0` is the identity. -/
def pyMinIdx {K : Type} [LinearOrder K] (f : ℕ → K) (n : ℕ) : ℕ :=
  pyMinFold f 0 (List.range n)

theorem pyMinFold_spec {A K : Type} [LinearOrder K] (f : A → K) (l : List A) (b : A) :
    (pyMinFold f b l = b ∨ pyMinFold f b l ∈ l) ∧
      f (pyMinFold f b l) ≤ f b ∧ ∀ y ∈ l, f (pyMinFold f b l) ≤ f y := by
  induction l generalizing b with
  | nil => simp [pyMinFold]
  | cons x t ih =>
    have hstep : pyMinFold f b (x :: t) = pyMinFold f (if f x < f b then x else b) t := rfl
    rw [hstep]
    by_cases hx : f x < f b
    · rw [if_pos hx]
      obtain ⟨h1, h2, h3⟩ := ih x
      refine ⟨?_, le_trans h2 (le_of_lt hx), ?_⟩
      · rcases h1 with h | h
        · right; rw [h]; exact List.mem_cons_self x t
        · exact Or.inr (List.mem_cons_of_mem _ h)
      · intro y hy
        rcases List.mem_cons.mp hy with rfl | hyt
        · exact h2
        · exact h3 y hyt
    · rw [if_neg hx]
      obtain ⟨h1, h2, h3⟩ := ih b
      refine ⟨?_, h2, ?_⟩
      · rcases h1 with h | h
        · exact Or.inl h
        · exact Or.inr (List.mem_cons_of_mem _ h)
      · intro y hy
        rcases List.mem_cons.mp hy with rfl | hyt
        · exact le_trans h2 (not_lt.mp hx)
        · exact h3 y hyt

theorem pyMinIdx_lt {K : Type} [LinearOrder K] (f : ℕ → K) (n : ℕ) (hn : 0 < n) :
    pyMinIdx f n < n := by
  obtain ⟨h1, -, -⟩ := pyMinFold_spec f (List.range n) 0
  rcases h1 with h | h
  · rw [pyMinIdx, h]; exact hn
  · exact List.mem_range.mp h

theorem pyMinIdx_le {K : Type} [LinearOrder K] (f : ℕ → K) (n i : ℕ) (hi : i < n) :
    f (pyMinIdx f n) ≤ f i := by
  obtain ⟨-, -, h3⟩ := pyMinFold_spec f (List.range n) 0
  exact h3 i (List.mem_range.mpr hi)

/-- SJF sort key `(tempo_exec, chegada, id)` with Python tuple (lexicographic)
comparison (`main.py` line 201). -/
def sjfKey (r : Request) : Lex (ℚ × Lex (ℚ × ℤ)) :=
  toLex (r.tempo_exec, toLex (r.chegada, r.id))

/-- Priority sort key `(prioridade, chegada, id)` with Python tuple
(lexicographic) comparison (`main.py` line 206). -/
def prioKey (r : Request) : Lex (ℤ × Lex (ℚ × ℤ)) :=
  toLex (r.prioridade, toLex (r.chegada, r.id))

/-- Faithful embedding of `pick_next_request` (`main.py` lines 191-209).
Raising `ValueError` is modelled by `Except.error`; `pending[idx]` with
`idx < len(pending)` is rendered as `getD idx default` (the default is
never reached, see the theorems). -/
def pick_next_request (pending : List Request) (policy : String) (rr_index : ℕ) :
    Except String (Request × ℕ) :=
  if pending.isEmpty then Except.error "pending vazio"
  else if policy = "rr" then
    let idx := rr_index % pending.length
    Except.ok (pending.getD idx default, idx)
  else if policy = "sjf" then
    let idx := pyMinIdx (fun i => sjfKey (pending.getD i default)) pending.length
    Except.ok (pending.getD idx default, idx)
  else if policy = "priority" then
    let idx := pyMinIdx (fun i => prioKey (pending.getD i default)) pending.length
    Except.ok (pending.getD idx default, idx)
  else Except.error ("policy inválida: " ++ policy)

theorem getD_pyMinIdx_spec {K : Type} [LinearOrder K] (pending : List Request)
    (hne : pending ≠ []) (key : Request → K) :
    pending.getD (pyMinIdx (fun i => key (pending.getD i default)) pending.length) default
        ∈ pending ∧
    ∀ q ∈ pending,
      key (pending.getD (pyMinIdx (fun i => key (pending.getD i default)) pending.length)
        default) ≤ key q := by
  have hn : 0 < pending.length := List.length_pos.mpr hne
  have hidx := pyMinIdx_lt (fun i => key (pending.getD i default)) pending.length hn
  constructor
  · rw [List.getD_eq_getElem pending default hidx]
    exact List.getElem_mem hidx
  · intro q hq
    obtain ⟨i, hi, hqe⟩ := List.mem_iff_getElem.mp hq
    have e1 : pending.getD i default = q := by
      rw [List.getD_eq_getElem pending default hi, hqe]
    have h := pyMinIdx_le (fun j => key (pending.getD j default)) pending.length i hi
    simp only at h
    rw [e1] at h
    exact h

theorem isEmpty_false_of_ne {α : Type} (l : List α) (h : l ≠ []) : l.isEmpty = false := by
  simpa [List.isEmpty_iff] using h

theorem pick_rr_eq (pending : List Request) (rr : ℕ) (h0 : pending.isEmpty = false) :
    pick_next_request pending "rr" rr =
      Except.ok (pending.getD (rr % pending.length) default, rr % pending.length) := by
  unfold pick_next_request
  rw [h0]
  rfl

theorem pick_sjf_eq (pending : List Request) (rr : ℕ) (h0 : pending.isEmpty = false) :
    pick_next_request pending "sjf" rr =
      Except.ok
        (pending.getD (pyMinIdx (fun i => sjfKey (pending.getD i default)) pending.length)
          default,
         pyMinIdx (fun i => sjfKey (pending.getD i default)) pending.length) := by
  unfold pick_next_request
  rw [h0]
  rfl

theorem pick_priority_eq (pending : List Request) (rr : ℕ) (h0 : pending.isEmpty = false) :
    pick_next_request pending "priority" rr =
      Except.ok
        (pending.getD (pyMinIdx (fun i => prioKey (pending.getD i default)) pending.length)
          default,
         pyMinIdx (fun i => prioKey (pending.getD i default)) pending.length) := by
  unfold pick_next_request
  rw [h0]
  rfl

/-- Example requests (the default config of `load_config`, `main.py`
lines 505-509, with arrival 0). -/
def reqA : Request := { id := 101, tipo := "visao_computacional", prioridade := 1, tempo_exec := 8, chegada := 0 }

def reqB : Request := { id := 102, tipo := "nlp", prioridade := 3, tempo_exec := 3, chegada := 0 }

def reqC : Request := { id := 103, tipo := "voz", prioridade := 2, tempo_exec := 5, chegada := 0 }

/-- C1: for every non-empty pending list, policy "sjf" returns a pending
request whose key `(tempo_exec, chegada, id)` is lexicographically minimum
among pending, and policy "priority" returns a pending request whose key
`(prioridade, chegada, id)` is lexicographically minimum (lower numeric
priority served first). -/
theorem sjf_priority_pick_lex_min (pending : List Request) (rr_index : ℕ)
    (hne : pending ≠ []) :
    (∃ r idx, pick_next_request pending "sjf" rr_index = Except.ok (r, idx) ∧
        r ∈ pending ∧ ∀ q ∈ pending, sjfKey r ≤ sjfKey q) ∧
    (∃ r idx, pick_next_request pending "priority" rr_index = Except.ok (r, idx) ∧
        r ∈ pending ∧ ∀ q ∈ pending, prioKey r ≤ prioKey q) := by
  have h0 := isEmpty_false_of_ne pending hne
  constructor
  · obtain ⟨hmem, hmin⟩ := getD_pyMinIdx_spec pending hne sjfKey
    exact ⟨_, _, pick_sjf_eq pending rr_index h0, hmem, hmin⟩
  · obtain ⟨hmem, hmin⟩ := getD_pyMinIdx_spec pending hne prioKey
    exact ⟨_, _, pick_priority_eq pending rr_index h0, hmem, hmin⟩

/-- Witness for C1 at the three-request example list. -/
theorem sjf_priority_pick_lex_min_witness :
    (∃ r idx, pick_next_request [reqA, reqB, reqC] "sjf" 0 = Except.ok (r, idx) ∧
        r ∈ [reqA, reqB, reqC] ∧ ∀ q ∈ [reqA, reqB, reqC], sjfKey r ≤ sjfKey q) ∧
    (∃ r idx, pick_next_request [reqA, reqB, reqC] "priority" 0 = Except.ok (r, idx) ∧
        r ∈ [reqA, reqB, reqC] ∧ ∀ q ∈ [reqA, reqB, reqC], prioKey r ≤ prioKey q) :=
  sjf_priority_pick_lex_min [reqA, reqB, reqC] 0 (List.cons_ne_nil _ _)

/-- C5: on the empty pending list `pick_next_request` raises ValueError
(modelled as `Except.error`) for every policy string and cursor value; it
never returns a selection. -/
theorem pick_empty_pending_fails (policy : String) (rr_index : ℕ) :
    pick_next_request [] policy rr_index = Except.error "pending vazio" := rfl

/-- C9: for non-empty pending and a policy string other than "rr", "sjf",
"priority", `pick_next_request` raises ValueError; it never returns a
selection for an unknown policy. -/
theorem pick_unknown_policy_fails (pending : List Request) (policy : String) (rr_index : ℕ)
    (hne : pending ≠ []) (h1 : policy ≠ "rr") (h2 : policy ≠ "sjf") (h3 : policy ≠ "priority") :
    pick_next_request pending policy rr_index =
      Except.error ("policy inválida: " ++ policy) := by
  have h0 := isEmpty_false_of_ne pending hne
  simp [pick_next_request, h0, h1, h2, h3]

/-- Witness for C9 with the unrecognized policy string "fifo". -/
theorem pick_unknown_policy_fails_witness :
    pick_next_request [reqA] "fifo" 0 = Except.error ("policy inválida: " ++ "fifo") :=
  pick_unknown_policy_fails [reqA] "fifo" 0 (List.cons_ne_nil _ _)
    (by decide) (by decide) (by decide)

/-- State-passing reading of `pick_next_request` (`main.py` lines 191-209):
the Python body only reads `pending` (its length, indexing, `min` over an
index range) and contains no statement mutating the list, so the list
leaves the call exactly as it entered; removal is done by the caller
(line 433). -/
def pick_next_request_state (pending : List Request) (policy : String) (rr_index : ℕ) :
    Except String (Request × ℕ) × List Request :=
  (pick_next_request pending policy rr_index, pending)

/-- C10: `pick_next_request` does not mutate the pending list: the list
after the call equals the list before, and for every recognized policy the
returned request is the element of that unchanged list at the returned
index. -/
theorem pick_no_mutation (pending : List Request) (policy : String) (rr_index : ℕ)
    (hne : pending ≠ [])
    (hpol : policy = "rr" ∨ policy = "sjf" ∨ policy = "priority") :
    (pick_next_request_state pending policy rr_index).2 = pending ∧
    ∃ r idx, (pick_next_request_state pending policy rr_index).1 = Except.ok (r, idx) ∧
      idx < pending.length ∧
      (pick_next_request_state pending policy rr_index).2.getD idx default = r := by
  have h0 := isEmpty_false_of_ne pending hne
  have hl : 0 < pending.length := List.length_pos.mpr hne
  refine ⟨rfl, ?_⟩
  rcases hpol with rfl | rfl | rfl
  · exact ⟨_, _, pick_rr_eq pending rr_index h0, Nat.mod_lt _ hl, rfl⟩
  · exact ⟨_, _, pick_sjf_eq pending rr_index h0, pyMinIdx_lt _ _ hl, rfl⟩
  · exact ⟨_, _, pick_priority_eq pending rr_index h0, pyMinIdx_lt _ _ hl, rfl⟩

/-- Witness for C10 with policy "rr", cursor 5, two pending requests. -/
theorem pick_no_mutation_witness :
    (pick_next_request_state [reqA, reqB] "rr" 5).2 = [reqA, reqB] ∧
    ∃ r idx, (pick_next_request_state [reqA, reqB] "rr" 5).1 = Except.ok (r, idx) ∧
      idx < [reqA, reqB].length ∧
      (pick_next_request_state [reqA, reqB] "rr" 5).2.getD idx default = r :=
  pick_no_mutation [reqA, reqB] "rr" 5 (List.cons_ne_nil _ _) (Or.inl rfl)

/-- The RR branch of the dispatch sub-loop (`main.py` lines 427-433):
select via `pick_next_request`, advance the request cursor to
`(rr_req_index + 1) % max(1, len(pending))` — computed on line 431, BEFORE
`pending.pop(idx)` on line 433, so the modulus is the pre-removal
length — then remove the chosen request. Returns (chosen request,
remaining pending list, new cursor). -/
def dispatch_step_rr (pending : List Request) (rr_req_index : ℕ) :
    Except String (Request × List Request × ℕ) :=
  match pick_next_request pending "rr" rr_req_index with
  | Except.error e => Except.error e
  | Except.ok (req, idx) =>
      Except.ok (req, pending.eraseIdx idx, (rr_req_index + 1) % max 1 pending.length)

/-- C3 counterexample: with three pending requests and cursor 2, the chosen
index is 2 % 3 = 2 and the code advances the cursor to (2+1) % 3 = 0
(modulus taken at line 431, before the pop on line 433), whereas wrapping
modulo the now-shorter (post-removal) pending length would give
(2+1) % 2 = 1. -/
theorem rr_cursor_uses_preremoval_length :
    dispatch_step_rr [reqA, reqB, reqC] 2 = Except.ok (reqC, [reqA, reqB], 0) ∧
    (0 : ℕ) ≠ (2 + 1) % ([reqA, reqB, reqC].eraseIdx 2).length := by
  exact ⟨rfl, by decide⟩

/-- C3 amended: RR request selection picks the request at index
rr_cursor % len(pending); the caller advances the cursor by one wrapping
modulo the PRE-removal pending length (the update on line 431 runs before
the pop on line 433), and then removes the chosen request. -/
theorem rr_dispatch_step_spec (pending : List Request) (rr_index : ℕ)
    (hne : pending ≠ []) :
    dispatch_step_rr pending rr_index =
      Except.ok (pending.getD (rr_index % pending.length) default,
        pending.eraseIdx (rr_index % pending.length),
        (rr_index + 1) % pending.length) := by
  have h0 := isEmpty_false_of_ne pending hne
  have hl : 0 < pending.length := List.length_pos.mpr hne
  have hmax : max 1 pending.length = pending.length := by omega
  unfold dispatch_step_rr
  rw [pick_rr_eq pending rr_index h0, hmax]

/-- Witness for the amended C3: two pending requests, cursor 3: index
3 % 2 = 1 is chosen, the new cursor is (3+1) % 2 = 0. -/
theorem rr_dispatch_step_spec_witness :
    dispatch_step_rr [reqA, reqB] 3 = Except.ok (reqB, [reqA], 0) :=
  rr_dispatch_step_spec [reqA, reqB] 3 (List.cons_ne_nil _ _)

/-- Least-index characterization of `find?` over `List.range n`. -/
theorem find_range_least (p : ℕ → Bool) (n k : ℕ)
    (h : (List.range n).find? p = some k) :
    k < n ∧ p k = true ∧ ∀ j < k, p j = false := by
  induction n with
  | zero => simp [List.range_zero] at h
  | succ m ih =>
    rw [List.range_succ, List.find?_append] at h
    cases hm : (List.range m).find? p with
    | some k0 =>
      rw [hm] at h
      simp only [Option.or_some] at h
      obtain rfl : k0 = k := by injection h
      obtain ⟨h1, h2, h3⟩ := ih hm
      exact ⟨Nat.lt_succ_of_lt h1, h2, h3⟩
    | none =>
      rw [hm] at h
      simp only [Option.none_or] at h
      have hnone := List.find?_eq_none.mp hm
      rcases hpm : p m with hf | ht
      · rw [List.find?_singleton, hpm] at h
        simp at h
      · rw [List.find?_singleton, hpm] at h
        simp only [if_true, Option.some.injEq] at h
        subst h
        refine ⟨Nat.lt_succ_self m, hpm, ?_⟩
        intro j hj
        have hj2 : ¬ p j = true := hnone j (List.mem_range.mpr hj)
        simpa using hj2

/-- Every index below n is reached by the wrap-once scan starting at any
cursor: there is a k < n with (ptr + k) % n = i. -/
theorem scan_hits_every_index (ptr i n : ℕ) (hi : i < n) :
    ∃ k < n, (ptr + k) % n = i := by
  have hnpos : 0 < n := lt_of_le_of_lt (Nat.zero_le i) hi
  have hlt : ptr % n < n := Nat.mod_lt _ hnpos
  refine ⟨(i + n - ptr % n) % n, Nat.mod_lt _ hnpos, ?_⟩
  calc (ptr + (i + n - ptr % n) % n) % n
      = (ptr + (i + n - ptr % n)) % n := Nat.add_mod_mod ptr _ n
    _ = (ptr % n + (i + n - ptr % n)) % n := (Nat.mod_add_mod ptr n _).symm
    _ = (i + n) % n := by rw [show ptr % n + (i + n - ptr % n) = i + n by omega]
    _ = i % n := Nat.add_mod_right i n
    _ = i := Nat.mod_eq_of_lt hi

/-- Free-slot test `w.active < w.capacidade` used by both worker-selection
strategies (`main.py` lines 214 and 235). -/
def hasFreeSlot (w : WorkerInfo) : Prop := w.active < w.capacidade

instance (w : WorkerInfo) : Decidable (hasFreeSlot w) :=
  inferInstanceAs (Decidable (w.active < w.capacidade))

/-- Faithful embedding of `choose_worker_rr` (`main.py` lines 226-238):
scan k = 0, 1, ..., n-1 over index (rr_worker_ptr + k) % n and return the
first worker with a free slot, paired with the advanced cursor
(idx + 1) % n; if none has a free slot (or the list is empty), return
none with the cursor unchanged. The for-loop with early return is
rendered as `find?` over `List.range n`. -/
def choose_worker_rr (workers : List WorkerInfo) (rr_worker_ptr : ℕ) :
    Option WorkerInfo × ℕ :=
  if workers.isEmpty then (none, rr_worker_ptr)
  else
    let n := workers.length
    match (List.range n).find? (fun k =>
        decide (hasFreeSlot (workers.getD ((rr_worker_ptr + k) % n) default))) with
    | some k => (some (workers.getD ((rr_worker_ptr + k) % n) default),
                 ((rr_worker_ptr + k) % n + 1) % n)
    | none => (none, rr_worker_ptr)

/-- C6: round-robin worker selection scans forward from the cursor through
the worker list wrapping once. If no worker has a free slot it returns
none with the cursor unchanged; if some worker has a free slot it returns
one; and any returned worker is the FIRST free worker in scan order, with
the cursor advanced just past its position. -/
theorem choose_worker_rr_first_free (workers : List WorkerInfo) (ptr : ℕ) :
    ((∀ w ∈ workers, ¬ hasFreeSlot w) → choose_worker_rr workers ptr = (none, ptr)) ∧
    ((∃ w ∈ workers, hasFreeSlot w) → ∃ w c, choose_worker_rr workers ptr = (some w, c)) ∧
    (∀ w c, choose_worker_rr workers ptr = (some w, c) →
        ∃ k < workers.length,
          w = workers.getD ((ptr + k) % workers.length) default ∧
          hasFreeSlot w ∧
          c = ((ptr + k) % workers.length + 1) % workers.length ∧
          ∀ j < k, ¬ hasFreeSlot (workers.getD ((ptr + j) % workers.length) default)) := by
  by_cases hemp : workers.isEmpty
  · have hnil : workers = [] := List.isEmpty_iff.mp hemp
    subst hnil
    refine ⟨fun _ => rfl, ?_, ?_⟩
    · rintro ⟨w, hw, -⟩
      cases hw
    · intro w c hc
      exact absurd hc (by simp [choose_worker_rr])
  · have hne : workers ≠ [] := fun h => hemp (by simp [h])
    have hnpos : 0 < workers.length := List.length_pos.mpr hne
    have hunfold : choose_worker_rr workers ptr =
        match (List.range workers.length).find? (fun k =>
            decide (hasFreeSlot
              (workers.getD ((ptr + k) % workers.length) default))) with
        | some k => (some (workers.getD ((ptr + k) % workers.length) default),
                     ((ptr + k) % workers.length + 1) % workers.length)
        | none => (none, ptr) := by
      unfold choose_worker_rr
      rw [isEmpty_false_of_ne workers hne]
      rfl
    cases hfind : (List.range workers.length).find? (fun k =>
        decide (hasFreeSlot (workers.getD ((ptr + k) % workers.length) default))) with
    | none =>
      rw [hfind] at hunfold
      have hnofree := List.find?_eq_none.mp hfind
      refine ⟨fun _ => hunfold, ?_, ?_⟩
      · rintro ⟨w, hw, hfree⟩
        obtain ⟨i, hi, hie⟩ := List.mem_iff_getElem.mp hw
        obtain ⟨k, hk, hke⟩ := scan_hits_every_index ptr i workers.length hi
        have hmem : k ∈ List.range workers.length := List.mem_range.mpr hk
        have hnf := hnofree k hmem
        rw [decide_eq_true_eq] at hnf
        have hfree2 : hasFreeSlot (workers.getD ((ptr + k) % workers.length) default) := by
          rw [hke, List.getD_eq_getElem workers default hi, hie]
          exact hfree
        exact absurd hfree2 hnf
      · intro w c hc
        rw [hunfold] at hc
        exact absurd hc (by simp)
    | some k =>
      rw [hfind] at hunfold
      obtain ⟨hk, hpk, hleast⟩ := find_range_least _ _ _ hfind
      rw [decide_eq_true_eq] at hpk
      have hidx : (ptr + k) % workers.length < workers.length :=
        Nat.mod_lt _ hnpos
      refine ⟨?_, ?_, ?_⟩
      · intro hall
        have hmem : workers.getD ((ptr + k) % workers.length) default ∈ workers := by
          rw [List.getD_eq_getElem workers default hidx]
          exact List.getElem_mem hidx
        exact absurd hpk (hall _ hmem)
      · exact fun _ => ⟨_, _, hunfold⟩
      · intro w c hc
        rw [hunfold] at hc
        obtain ⟨hw, hcc⟩ : workers.getD ((ptr + k) % workers.length) default = w ∧
            ((ptr + k) % workers.length + 1) % workers.length = c := by
          constructor
          · exact congrArg (fun p => (p.1.getD default)) hc
          · exact congrArg Prod.snd hc
        refine ⟨k, hk, hw.symm, hw ▸ hpk, hcc.symm, ?_⟩
        intro j hj
        have := hleast j hj
        rw [decide_eq_false_iff_not] at this
        exact this

/-- Example workers: wkA saturated, wkB with a free slot. -/
def wkA : WorkerInfo := { id := 1, capacidade := 3, active := 3 }

def wkB : WorkerInfo := { id := 2, capacidade := 2, active := 1 }

/-- Witness for C6: with a saturated worker first and a free worker second,
the scan starting at cursor 0 returns a selection. -/
theorem choose_worker_rr_first_free_witness :
    ∃ w c, choose_worker_rr [wkA, wkB] 0 = (some w, c) :=
  (choose_worker_rr_first_free [wkA, wkB] 0).2.1 ⟨wkB, by decide, by decide⟩

/-- Best-fit score (`main.py` lines 218-221): the Python tuple
`(active / max(1, capacidade), -capacidade, id)` under lexicographic
comparison — smaller load ratio first, ties toward larger capacity, then
smaller id. -/
def bestfitScore (w : WorkerInfo) : Lex (ℚ × Lex (ℤ × ℤ)) :=
  toLex ((w.active : ℚ) / ((max 1 w.capacidade : ℤ) : ℚ), toLex (-w.capacidade, w.id))

/-- Faithful embedding of `choose_worker_bestfit` (`main.py` lines 212-223):
keep the workers with `active < capacidade`; if none remain return none,
otherwise Python `min` by `bestfitScore` over the eligible list. -/
def choose_worker_bestfit (workers : List WorkerInfo) : Option WorkerInfo :=
  match workers.filter (fun w => decide (hasFreeSlot w)) with
  | [] => none
  | x :: xs => some (pyMinFold bestfitScore x xs)

theorem bestfitScore_eq (w : WorkerInfo) (h : 1 ≤ w.capacidade) :
    bestfitScore w =
      toLex ((w.active : ℚ) / (w.capacidade : ℚ), toLex (-w.capacidade, w.id)) := by
  unfold bestfitScore
  rw [max_eq_right h]

/-- C2: best-fit worker selection considers only workers with
`active < capacidade` and, among those, returns one whose key
`(active/capacity, -capacity, id)` is lexicographically minimum; it never
returns a worker with `active = capacidade`, and if every worker is
saturated it returns none (and conversely). Capacities are at least 1, as
guaranteed by construction (`main.py` lines 270-272). -/
theorem choose_worker_bestfit_min (workers : List WorkerInfo)
    (hcap : ∀ w ∈ workers, 1 ≤ w.capacidade) :
    (choose_worker_bestfit workers = none ↔ ∀ w ∈ workers, ¬ hasFreeSlot w) ∧
    (∀ w, choose_worker_bestfit workers = some w →
      w ∈ workers ∧ hasFreeSlot w ∧ w.active ≠ w.capacidade ∧
      ∀ v ∈ workers, hasFreeSlot v →
        toLex ((w.active : ℚ) / (w.capacidade : ℚ), toLex (-w.capacidade, w.id)) ≤
        toLex ((v.active : ℚ) / (v.capacidade : ℚ), toLex (-v.capacidade, v.id))) := by
  cases hfil : workers.filter (fun w => decide (hasFreeSlot w)) with
  | nil =>
    have hall : ∀ w ∈ workers, ¬ hasFreeSlot w := by
      intro w hw
      have := List.filter_eq_nil_iff.mp hfil w hw
      rw [decide_eq_true_eq] at this
      exact this
    constructor
    · constructor
      · intro _
        exact hall
      · intro _
        unfold choose_worker_bestfit
        rw [hfil]
    · intro w hc
      unfold choose_worker_bestfit at hc
      rw [hfil] at hc
      exact absurd hc (by simp)
  | cons x xs =>
    have heq : choose_worker_bestfit workers = some (pyMinFold bestfitScore x xs) := by
      unfold choose_worker_bestfit
      rw [hfil]
    have hxmem : x ∈ workers.filter (fun w => decide (hasFreeSlot w)) := by
      rw [hfil]
      exact List.mem_cons_self x xs
    obtain ⟨hxw, hxfree⟩ := List.mem_filter.mp hxmem
    rw [decide_eq_true_eq] at hxfree
    constructor
    · constructor
      · intro h
        rw [heq] at h
        exact absurd h (by simp)
      · intro hall
        exact absurd hxfree (hall x hxw)
    · intro w hc
      rw [heq] at hc
      obtain rfl : pyMinFold bestfitScore x xs = w := by injection hc
      obtain ⟨h1, h2, h3⟩ := pyMinFold_spec bestfitScore xs x
      have hwfil : pyMinFold bestfitScore x xs ∈
          workers.filter (fun w => decide (hasFreeSlot w)) := by
        rw [hfil]
        rcases h1 with h | h
        · rw [h]; exact List.mem_cons_self x xs
        · exact List.mem_cons_of_mem _ h
      obtain ⟨hww, hwfree⟩ := List.mem_filter.mp hwfil
      rw [decide_eq_true_eq] at hwfree
      refine ⟨hww, hwfree, ne_of_lt hwfree, ?_⟩
      intro v hv hvfree
      have hvfil : v ∈ workers.filter (fun w => decide (hasFreeSlot w)) := by
        rw [List.mem_filter, decide_eq_true_eq]
        exact ⟨hv, hvfree⟩
      have hscore : bestfitScore (pyMinFold bestfitScore x xs) ≤ bestfitScore v := by
        rw [hfil] at hvfil
        rcases List.mem_cons.mp hvfil with rfl | hvt
        · exact h2
        · exact h3 v hvt
      rw [← bestfitScore_eq _ (hcap _ hww), ← bestfitScore_eq _ (hcap _ hv)]
      exact hscore

/-- Example workers with free slots: load ratios 1/3 and 1/2. -/
def wkC : WorkerInfo := { id := 1, capacidade := 3, active := 1 }

def wkD : WorkerInfo := { id := 2, capacidade := 2, active := 1 }

/-- Witness for C2 at a two-worker pool with capacities 3 and 2. -/
theorem choose_worker_bestfit_min_witness :
    (∀ w ∈ [wkC, wkD], 1 ≤ w.capacidade) ∧
    ((choose_worker_bestfit [wkC, wkD] = none ↔ ∀ w ∈ [wkC, wkD], ¬ hasFreeSlot w) ∧
    (∀ w, choose_worker_bestfit [wkC, wkD] = some w →
      w ∈ [wkC, wkD] ∧ hasFreeSlot w ∧ w.active ≠ w.capacidade ∧
      ∀ v ∈ [wkC, wkD], hasFreeSlot v →
        toLex ((w.active : ℚ) / (w.capacidade : ℚ), toLex (-w.capacidade, w.id)) ≤
        toLex ((v.active : ℚ) / (v.capacidade : ℚ), toLex (-v.capacidade, v.id)))) :=
  ⟨by decide, choose_worker_bestfit_min [wkC, wkD] (by decide)⟩

/-- Final report quantities (`main.py` lines 463-486). -/
structure Metrics where
  avg_resp : ℚ
  max_wait : ℚ
  throughput : ℚ
  util_by_worker : List (ℤ × ℚ)
  avg_util : ℚ
deriving DecidableEq, Repr

/-- The 1e-9 floor applied to the makespan (`main.py` line 463). -/
def makespanEps : ℚ := 1 / 1000000000

/-- Faithful embedding of the metrics computation (`main.py` lines
463-475): makespan floored at 1e-9; mean response (0 when nothing
completed); Python `max(wait_times)` with the `else 0.0` guard;
throughput `total_n / makespan`; per-worker utilization
`total_effective_work / (makespan * max(1, capacidade))` clamped to
[0, 1]; and the mean of the per-worker utilizations. `elapsed` stands for
`now() - t0`. -/
def compute_metrics (response_times wait_times : List ℚ) (workers : List WorkerInfo)
    (total_n : ℕ) (elapsed : ℚ) : Metrics :=
  let makespan := max makespanEps elapsed
  let avg_resp := if response_times.isEmpty then 0
    else response_times.sum / (response_times.length : ℚ)
  let max_wait := match wait_times with
    | [] => 0
    | x :: xs => xs.foldl max x
  let throughput := (total_n : ℚ) / makespan
  let util_by_worker := workers.map (fun w =>
    (w.id, max 0 (min 1 (w.total_effective_work /
      (makespan * ((max 1 w.capacidade : ℤ) : ℚ))))))
  let avg_util := if util_by_worker.isEmpty then 0
    else (util_by_worker.map Prod.snd).sum / (util_by_worker.length : ℚ)
  { avg_resp := avg_resp, max_wait := max_wait, throughput := throughput,
    util_by_worker := util_by_worker, avg_util := avg_util }

/-- Metrics as the specification words them (claim C4): mean response over
completed requests (0 if none), maximum wait (0 if none), throughput =
total request count / epsilon-floored makespan, per-worker utilization
`total_effective_work / (makespan * capacity)` clamped to [0, 1], overall
utilization the arithmetic mean of the per-worker utilizations. Stated
with the plain capacity in the divisor, as the spec says. -/
def metrics_spec (response_times wait_times : List ℚ) (workers : List WorkerInfo)
    (total_n : ℕ) (elapsed : ℚ) : Metrics :=
  let makespan := max makespanEps elapsed
  { avg_resp := if response_times = [] then 0
      else response_times.sum / (response_times.length : ℚ)
    max_wait := match wait_times with
      | [] => 0
      | x :: xs => xs.foldl max x
    throughput := (total_n : ℚ) / makespan
    util_by_worker := workers.map (fun w =>
      (w.id, max 0 (min 1 (w.total_effective_work / (makespan * (w.capacidade : ℚ))))))
    avg_util := if workers = [] then 0
      else (workers.map (fun w =>
        max 0 (min 1 (w.total_effective_work / (makespan * (w.capacidade : ℚ)))))).sum /
        (workers.length : ℚ) }

/-- C4: with all capacities ≥ 1 (as construction guarantees), the code's
metrics block computes exactly the specified formulas; moreover the
makespan floor makes the divisor positive and every reported per-worker
utilization lies in [0, 1]. -/
theorem compute_metrics_spec (response_times wait_times : List ℚ)
    (workers : List WorkerInfo) (total_n : ℕ) (elapsed : ℚ)
    (hcap : ∀ w ∈ workers, 1 ≤ w.capacidade) :
    compute_metrics response_times wait_times workers total_n elapsed =
      metrics_spec response_times wait_times workers total_n elapsed ∧
    0 < max makespanEps elapsed ∧
    ∀ p ∈ (compute_metrics response_times wait_times workers total_n elapsed).util_by_worker,
      0 ≤ p.2 ∧ p.2 ≤ 1 := by
  have hmap : workers.map (fun w =>
      (w.id, max 0 (min 1 (w.total_effective_work /
        (max makespanEps elapsed * ((max 1 w.capacidade : ℤ) : ℚ)))))) =
      workers.map (fun w =>
      (w.id, max 0 (min 1 (w.total_effective_work /
        (max makespanEps elapsed * (w.capacidade : ℚ)))))) := by
    apply List.map_congr_left
    intro w hw
    rw [max_eq_right (hcap w hw)]
  refine ⟨?_, ?_, ?_⟩
  · simp only [compute_metrics, metrics_spec]
    rw [hmap]
    congr 1
    · simp [List.isEmpty_iff]
    · simp [List.isEmpty_iff, List.map_map, Function.comp_def]
  · have h1 : (0 : ℚ) < makespanEps := by norm_num [makespanEps]
    exact lt_of_lt_of_le h1 (le_max_left _ _)
  · intro p hp
    simp only [compute_metrics] at hp
    obtain ⟨w, hw, hpe⟩ := List.mem_map.mp hp
    constructor
    · rw [← hpe]
      exact le_max_left _ _
    · rw [← hpe]
      exact max_le (by norm_num) (min_le_left _ _)

/-- Witness for C4 with two completed requests and one worker. -/
theorem compute_metrics_spec_witness :
    (∀ w ∈ [wkC], 1 ≤ w.capacidade) ∧
    (compute_metrics [4, 6] [0, 2] [wkC] 2 10 = metrics_spec [4, 6] [0, 2] [wkC] 2 10 ∧
    0 < max makespanEps 10 ∧
    ∀ p ∈ (compute_metrics [4, 6] [0, 2] [wkC] 2 10).util_by_worker,
      0 ≤ p.2 ∧ p.2 ≤ 1) :=
  ⟨by decide, compute_metrics_spec [4, 6] [0, 2] [wkC] 2 10 (by decide)⟩

/-- A configuration field as consulted by `master_run` (`main.py` lines
250-259): `config.get(key, [])` substitutes `[]` when the key is missing,
and the guard `not value or not isinstance(value, list)` rejects every
value that is not a non-empty list (a falsy value fails the first test, a
truthy non-list fails the isinstance test), so only which of the three
shapes the field has matters. -/
inductive CfgVal (α : Type) where
  | missing : CfgVal α
  | notAList : CfgVal α
  | list : List α → CfgVal α
deriving DecidableEq

/-- One entry of the `servidores` list (`main.py` lines 268-270): `id` and
`capacidade`, read as ints. -/
structure ServerCfg where
  id : ℤ
  capacidade : ℤ
deriving DecidableEq, Repr

/-- One entry of the `requisicoes` list (`main.py` lines 285-297):
mandatory `id`; optional `tipo` (default "generic"), `prioridade`
(default 2), `tempo_exec` (default 1.0), `chegada` (randomly drawn when
absent). -/
structure RequestCfg where
  id : ℤ
  tipo : Option String := none
  prioridade : Option ℤ := none
  tempo_exec : Option ℚ := none
  chegada : Option ℚ := none
deriving DecidableEq, Repr

/-- The two configuration fields `master_run` reads. -/
structure MasterConfig where
  servidores : CfgVal ServerCfg
  requisicoes : CfgVal RequestCfg

/-- Outcome of the validation guard (`main.py` lines 253-259): the entry
list when the field holds a non-empty list, `none` (→ exit code 2)
otherwise. -/
def cfgListOk {α : Type} : CfgVal α → Option (List α)
  | CfgVal.list (x :: xs) => some (x :: xs)
  | _ => none

/-- Worker construction (`main.py` lines 268-274): non-positive configured
capacity is silently clamped to 1; `active` and `total_effective_work`
start at 0 (dataclass defaults). -/
def mk_worker (s : ServerCfg) : WorkerInfo :=
  { id := s.id, capacidade := if s.capacidade ≤ 0 then 1 else s.capacidade,
    active := 0, total_effective_work := 0 }

/-- Request construction (`main.py` lines 285-299): defaults applied,
negative estimated cost silently clamped to 0; `rand` stands for the
value `random.random() * arrival_jitter` drawn when `chegada` is absent. -/
def mk_request (rand : ℚ) (r : RequestCfg) : Request :=
  { id := r.id, tipo := r.tipo.getD "generic", prioridade := r.prioridade.getD 2,
    tempo_exec := if r.tempo_exec.getD 1 < 0 then 0 else r.tempo_exec.getD 1,
    chegada := r.chegada.getD rand }

/-- Arrival re-synthesis (`main.py` lines 301-307): when no entry provided
`chegada`, sort by id and overwrite each arrival with an accumulating sum
of fresh random increments; `rand i` is the i-th draw. Only `chegada` is
rewritten. -/
def assign_arrivals (rand : ℕ → ℚ) : ℚ → ℕ → List Request → List Request
  | _, _, [] => []
  | t, i, r :: rs =>
      { r with chegada := t + rand i } :: assign_arrivals rand (t + rand i) (i + 1) rs

/-- Worker list construction (`main.py` lines 268-281): build one worker
per entry, then sort by id for stability (Python stable sort rendered as
`mergeSort`). -/
def build_workers (servers : List ServerCfg) : List WorkerInfo :=
  (servers.map mk_worker).mergeSort (fun a b => decide (a.id ≤ b.id))

/-- Request list construction (`main.py` lines 284-309): build each request
(drawing `rand i` for the i-th entry when it lacks `chegada`); when every
entry lacked `chegada`, re-synthesize arrivals over the id-sorted list;
finally sort by (chegada, id). -/
def build_requests (rand : ℕ → ℚ) (reqs_in : List RequestCfg) : List Request :=
  let reqs0 := reqs_in.enum.map (fun p => mk_request (rand p.1) p.2)
  let reqs1 := if reqs_in.all (fun r => decide (r.chegada = none))
    then assign_arrivals rand 0 0 (reqs0.mergeSort (fun a b => decide (a.id ≤ b.id)))
    else reqs0
  reqs1.mergeSort (fun a b =>
    decide (a.chegada < b.chegada ∨ (a.chegada = b.chegada ∧ a.id ≤ b.id)))

/-- Load phase of `master_run` (`main.py` lines 250-311): validate both
lists — on failure return exit code 2 with no worker constructed — then
build the worker and request lists. Queue and process creation (lines
262-277, 313-315) carries no data used later and is elided. -/
def master_load (rand : ℕ → ℚ) (cfg : MasterConfig) :
    Except ℕ (List WorkerInfo × List Request) :=
  match cfgListOk cfg.servidores with
  | none => Except.error 2
  | some servers =>
    match cfgListOk cfg.requisicoes with
    | none => Except.error 2
    | some reqs_in => Except.ok (build_workers servers, build_requests rand reqs_in)

/-- Exit code of `master_run` (`main.py` lines 241-488): the only `return`
statements are the two validation failures (exit 2, lines 255 and 259)
and the final `return 0` (line 488). -/
def master_run_exit (rand : ℕ → ℚ) (cfg : MasterConfig) : ℕ :=
  match master_load rand cfg with
  | Except.error c => c
  | Except.ok _ => 0

theorem cfgListOk_none {α : Type} (v : CfgVal α)
    (h : v = CfgVal.missing ∨ v = CfgVal.notAList ∨ v = CfgVal.list []) :
    cfgListOk v = none := by
  rcases h with rfl | rfl | rfl <;> rfl

theorem master_load_err_serv (rand : ℕ → ℚ) (cfg : MasterConfig)
    (hs : cfgListOk cfg.servidores = none) :
    master_load rand cfg = Except.error 2 := by
  unfold master_load
  rw [hs]

theorem master_load_err_reqs (rand : ℕ → ℚ) (cfg : MasterConfig)
    (hr : cfgListOk cfg.requisicoes = none) :
    master_load rand cfg = Except.error 2 := by
  unfold master_load
  cases hs : cfgListOk cfg.servidores with
  | none => rfl
  | some servers => rw [hr]

theorem master_load_ok_eq (rand : ℕ → ℚ) (cfg : MasterConfig)
    (servers : List ServerCfg) (reqs_in : List RequestCfg)
    (hs : cfgListOk cfg.servidores = some servers)
    (hr : cfgListOk cfg.requisicoes = some reqs_in) :
    master_load rand cfg =
      Except.ok (build_workers servers, build_requests rand reqs_in) := by
  unfold master_load
  rw [hs, hr]

/-- C7: when the worker list or the request list is missing, empty or not
a list, `master_run` returns exit code 2 and the load fails before any
worker is constructed or spawned (`master_load` yields no worker list);
when both are non-empty lists the load succeeds and `master_run` returns
exit code 0. -/
theorem master_run_exit_codes (rand : ℕ → ℚ) (cfg : MasterConfig) :
    ((cfg.servidores = CfgVal.missing ∨ cfg.servidores = CfgVal.notAList ∨
      cfg.servidores = CfgVal.list [] ∨ cfg.requisicoes = CfgVal.missing ∨
      cfg.requisicoes = CfgVal.notAList ∨ cfg.requisicoes = CfgVal.list []) →
      master_load rand cfg = Except.error 2 ∧ master_run_exit rand cfg = 2) ∧
    (∀ s ss r rs, cfg.servidores = CfgVal.list (s :: ss) →
      cfg.requisicoes = CfgVal.list (r :: rs) →
      (∃ ws reqs, master_load rand cfg = Except.ok (ws, reqs)) ∧
      master_run_exit rand cfg = 0) := by
  constructor
  · intro hbad
    have herr : master_load rand cfg = Except.error 2 := by
      rcases hbad with h | h | h | h | h | h
      · exact master_load_err_serv rand cfg (cfgListOk_none _ (Or.inl h))
      · exact master_load_err_serv rand cfg (cfgListOk_none _ (Or.inr (Or.inl h)))
      · exact master_load_err_serv rand cfg (cfgListOk_none _ (Or.inr (Or.inr h)))
      · exact master_load_err_reqs rand cfg (cfgListOk_none _ (Or.inl h))
      · exact master_load_err_reqs rand cfg (cfgListOk_none _ (Or.inr (Or.inl h)))
      · exact master_load_err_reqs rand cfg (cfgListOk_none _ (Or.inr (Or.inr h)))
    refine ⟨herr, ?_⟩
    unfold master_run_exit
    rw [herr]
  · intro s ss r rs hserv hreq
    have hs : cfgListOk cfg.servidores = some (s :: ss) := by rw [hserv]; rfl
    have hr : cfgListOk cfg.requisicoes = some (r :: rs) := by rw [hreq]; rfl
    have hok := master_load_ok_eq rand cfg (s :: ss) (r :: rs) hs hr
    refine ⟨⟨_, _, hok⟩, ?_⟩
    unfold master_run_exit
    rw [hok]

/-- Invalid configuration: servidores missing entirely, requisicoes not a
list. -/
def cfgBad : MasterConfig :=
  { servidores := CfgVal.missing, requisicoes := CfgVal.notAList }

/-- A server entry with non-positive configured capacity. -/
def srvE : ServerCfg := { id := 1, capacidade := -3 }

/-- A request entry with negative estimated cost and explicit arrival. -/
def rqE : RequestCfg := { id := 7, tempo_exec := some (-2), chegada := some 0 }

/-- Valid (one-server, one-request) configuration whose entries need
sanitation. -/
def cfgGood : MasterConfig :=
  { servidores := CfgVal.list [srvE], requisicoes := CfgVal.list [rqE] }

/-- Degenerate random stream for witnesses. -/
def randZero : ℕ → ℚ := fun _ => 0

/-- Witness for C7: the invalid configuration exits with 2 and the valid
one with 0. -/
theorem master_run_exit_codes_witness :
    (master_load randZero cfgBad = Except.error 2 ∧ master_run_exit randZero cfgBad = 2) ∧
    ((∃ ws reqs, master_load randZero cfgGood = Except.ok (ws, reqs)) ∧
      master_run_exit randZero cfgGood = 0) :=
  ⟨(master_run_exit_codes randZero cfgBad).1 (Or.inl rfl),
   (master_run_exit_codes randZero cfgGood).2 srvE [] rqE [] rfl rfl⟩

theorem assign_arrivals_tempo (rand : ℕ → ℚ) (l : List Request) :
    ∀ (t : ℚ) (i : ℕ), ∀ r ∈ assign_arrivals rand t i l,
      ∃ r0 ∈ l, r.tempo_exec = r0.tempo_exec := by
  induction l with
  | nil =>
    intro t i r hr
    cases hr
  | cons x xs ih =>
    intro t i r hr
    rcases List.mem_cons.mp hr with rfl | hr2
    · exact ⟨x, List.mem_cons_self x xs, rfl⟩
    · obtain ⟨r0, hr0, he⟩ := ih (t + rand i) (i + 1) r hr2
      exact ⟨r0, List.mem_cons_of_mem _ hr0, he⟩

theorem mk_request_te_nonneg (rd : ℚ) (rc : RequestCfg) :
    0 ≤ (mk_request rd rc).tempo_exec := by
  by_cases h : rc.tempo_exec.getD 1 < 0
  · simp [mk_request, h]
  · simp [mk_request, h]
    exact not_lt.mp h

theorem build_workers_cap (servers : List ServerCfg) :
    ∀ w ∈ build_workers servers, 1 ≤ w.capacidade := by
  intro w hw
  have hw2 : w ∈ servers.map mk_worker :=
    (List.mergeSort_perm (servers.map mk_worker) _).mem_iff.mp hw
  obtain ⟨s, hs, rfl⟩ := List.mem_map.mp hw2
  by_cases h : s.capacidade ≤ 0
  · simp [mk_worker, h]
  · simp [mk_worker, h]
    omega

theorem build_requests_te (rand : ℕ → ℚ) (reqs_in : List RequestCfg) :
    ∀ r ∈ build_requests rand reqs_in, 0 ≤ r.tempo_exec := by
  intro r hr
  simp only [build_requests] at hr
  have hr1 := (List.mergeSort_perm _ _).mem_iff.mp hr
  have hreq0 : ∀ q ∈ reqs_in.enum.map (fun p => mk_request (rand p.1) p.2),
      0 ≤ q.tempo_exec := by
    intro q hq
    obtain ⟨p, hp, rfl⟩ := List.mem_map.mp hq
    exact mk_request_te_nonneg (rand p.1) p.2
  by_cases hall : reqs_in.all (fun r => decide (r.chegada = none)) = true
  · rw [if_pos hall] at hr1
    obtain ⟨r0, hr0, he⟩ := assign_arrivals_tempo rand _ 0 0 r hr1
    have hr0m := (List.mergeSort_perm _ _).mem_iff.mp hr0
    rw [he]
    exact hreq0 r0 hr0m
  · rw [if_neg hall] at hr1
    exact hreq0 r hr1

/-- C8: loading sanitizes silently rather than rejecting: a server entry
with configured capacity ≤ 0 produces a worker of capacity exactly 1 and
a request entry with negative estimated cost produces a request of cost
exactly 0; consequently, whenever the load succeeds, every constructed
worker has capacity ≥ 1 and every constructed request has estimated
cost ≥ 0. -/
theorem load_sanitizes (rand : ℕ → ℚ) (cfg : MasterConfig)
    (ws : List WorkerInfo) (reqs : List Request)
    (h : master_load rand cfg = Except.ok (ws, reqs)) :
    (∀ s : ServerCfg, s.capacidade ≤ 0 → (mk_worker s).capacidade = 1) ∧
    (∀ (rd q : ℚ) (rc : RequestCfg), rc.tempo_exec = some q → q < 0 →
      (mk_request rd rc).tempo_exec = 0) ∧
    (∀ w ∈ ws, 1 ≤ w.capacidade) ∧
    (∀ r ∈ reqs, 0 ≤ r.tempo_exec) := by
  refine ⟨?_, ?_, ?_⟩
  · intro s hs
    simp [mk_worker, hs]
  · intro rd q rc hq hneg
    simp [mk_request, hq, hneg]
  · cases hs : cfgListOk cfg.servidores with
    | none =>
      rw [master_load_err_serv rand cfg hs] at h
      exact absurd h (by simp)
    | some servers =>
      cases hr : cfgListOk cfg.requisicoes with
      | none =>
        rw [master_load_err_reqs rand cfg hr] at h
        exact absurd h (by simp)
      | some reqs_in =>
        rw [master_load_ok_eq rand cfg servers reqs_in hs hr] at h
        have h2 : (build_workers servers, build_requests rand reqs_in) = (ws, reqs) := by
          injection h
        obtain ⟨rfl, rfl⟩ : build_workers servers = ws ∧ build_requests rand reqs_in = reqs := by
          constructor
          · exact congrArg Prod.fst h2
          · exact congrArg Prod.snd h2
        exact ⟨build_workers_cap servers, build_requests_te rand reqs_in⟩

/-- Witness for C8: the valid configuration with capacity -3 and estimated
cost -2 loads successfully (not rejected) and is sanitized. -/
theorem load_sanitizes_witness :
    (∀ s : ServerCfg, s.capacidade ≤ 0 → (mk_worker s).capacidade = 1) ∧
    (∀ (rd q : ℚ) (rc : RequestCfg), rc.tempo_exec = some q → q < 0 →
      (mk_request rd rc).tempo_exec = 0) ∧
    (∀ w ∈ build_workers [srvE], 1 ≤ w.capacidade) ∧
    (∀ r ∈ build_requests randZero [rqE], 0 ≤ r.tempo_exec) :=
  load_sanitizes randZero cfgGood (build_workers [srvE]) (build_requests randZero [rqE]) rfl
